import Mathlib

/-!
Verification of the UML model comparator (`compare.py`).

The program holds a registry of named models, each a fact set of class
names and relationship triples.  `compare_models` (the reconciler) builds
the union of all classes and relationships and, for each fact, the ordered
list of model names containing it.  `evaluate_models` (the scorer) computes
per-model recall, precision and overlap metrics and a weighted total score.
The report stage selects the best model with Python `max` over the score
map.  Arithmetic is embedded in `ℚ`; division by zero is guarded in the
source by explicit truthiness branches, mirrored here by `if` conditions.
-/

/-- A relationship triple `(from, to, label)`, as built on line 13 of
`compare.py`. -/
abbrev RelTriple := String × String × String

/-- The fact set of one model: `{"classes": set, "relationships": set}`,
the value returned by `load_model_from_json`. -/
structure FactSet where
  classes : Finset String
  relationships : Finset RelTriple
deriving DecidableEq

/-- The model registry: the ordered dict `models` mapping model name to
fact set.  Embedded as an association list in dict insertion order. -/
abbrev Registry := List (String × FactSet)

/-! ## Reconciler (`compare_models`) -/

/-- The loop `for model_name, model_data in models.items():
all_classes.update(model_data["classes"])` of `compare_models`. -/
def allClasses (models : Registry) : Finset String :=
  models.foldl (fun acc p => acc ∪ p.2.classes) ∅

/-- The companion loop `all_relationships.update(model_data["relationships"])`
of `compare_models`. -/
def allRelationships (models : Registry) : Finset RelTriple :=
  models.foldl (fun acc p => acc ∪ p.2.relationships) ∅

/-- The entry `class_presence[cls]` built by `compare_models`: the names of
the models whose class set contains `cls`, in registry iteration order. -/
def classPresence (models : Registry) (cls : String) : List String :=
  (models.filter (fun p => cls ∈ p.2.classes)).map Prod.fst

/-- The entry `relationship_presence[rel]` built by `compare_models`. -/
def relationshipPresence (models : Registry) (rel : RelTriple) : List String :=
  (models.filter (fun p => rel ∈ p.2.relationships)).map Prod.fst

/-! ## Scorer (`evaluate_models`) -/

/-- Line 52: `class_overlap_count = sum([1 for cls in model_data["classes"]
if len(comparison["classes"][cls]) > 1])`. -/
def classOverlapCount (models : Registry) (fs : FactSet) : ℕ :=
  (fs.classes.filter (fun cls => 1 < (classPresence models cls).length)).card

/-- Line 58: the symmetric count over relationships. -/
def relOverlapCount (models : Registry) (fs : FactSet) : ℕ :=
  (fs.relationships.filter
    (fun rel => 1 < (relationshipPresence models rel).length)).card

/-- Line 50: `recall_classes = len(model_data["classes"]) / len(all_classes)
if all_classes else 0`. -/
def recallClasses (models : Registry) (fs : FactSet) : ℚ :=
  if allClasses models = ∅ then 0
  else (fs.classes.card : ℚ) / (allClasses models).card

/-- Line 53: `precision_classes = class_overlap_count /
len(model_data["classes"]) if model_data["classes"] else 0`. -/
def precisionClasses (models : Registry) (fs : FactSet) : ℚ :=
  if fs.classes = ∅ then 0
  else (classOverlapCount models fs : ℚ) / fs.classes.card

/-- Line 56: `recall_rels`, symmetric to `recall_classes`. -/
def recallRelationships (models : Registry) (fs : FactSet) : ℚ :=
  if allRelationships models = ∅ then 0
  else (fs.relationships.card : ℚ) / (allRelationships models).card

/-- Line 59: `precision_rels`, symmetric to `precision_classes`. -/
def precisionRelationships (models : Registry) (fs : FactSet) : ℚ :=
  if fs.relationships = ∅ then 0
  else (relOverlapCount models fs : ℚ) / fs.relationships.card

/-- Line 62: `overlap_score = (class_overlap_count + rel_overlap_count) /
(len(classes) + len(relationships))`, `0` when both sets are empty. -/
def overlapScore (models : Registry) (fs : FactSet) : ℚ :=
  if fs.classes = ∅ ∧ fs.relationships = ∅ then 0
  else (classOverlapCount models fs + relOverlapCount models fs : ℚ) /
    (fs.classes.card + fs.relationships.card)

/-- Lines 65-71: the weighted total score. -/
def totalScore (models : Registry) (fs : FactSet) : ℚ :=
  0.25 * recallClasses models fs +
  0.25 * precisionClasses models fs +
  0.25 * recallRelationships models fs +
  0.15 * precisionRelationships models fs +
  0.10 * overlapScore models fs

/-- The per-model metrics dict stored at lines 74-81 of `evaluate_models`. -/
structure MetricsRecord where
  recall_classes : ℚ
  precision_classes : ℚ
  recall_relationships : ℚ
  precision_relationships : ℚ
  overlap_score : ℚ
  total_score : ℚ
deriving DecidableEq

/-- The metrics record built for one model in the body of the
`evaluate_models` loop. -/
def metricsOf (models : Registry) (fs : FactSet) : MetricsRecord :=
  { recall_classes := recallClasses models fs
    precision_classes := precisionClasses models fs
    recall_relationships := recallRelationships models fs
    precision_relationships := precisionRelationships models fs
    overlap_score := overlapScore models fs
    total_score := totalScore models fs }

/-- `evaluate_models`: returns the pair `(scores, metrics)`, each a dict
keyed by model name in registry iteration order. -/
def evaluate_models (models : Registry) :
    List (String × ℚ) × List (String × MetricsRecord) :=
  (models.map (fun p => (p.1, totalScore models p.2)),
   models.map (fun p => (p.1, metricsOf models p.2)))

/-! ## Loader (`load_model_from_json`) -/

/-- One raw relationship entry of the input JSON: each of the `from`, `to`
and `label` fields may be absent. -/
structure RawRel where
  from_ : Option String
  to_ : Option String
  label : Option String
deriving DecidableEq

/-- The raw parsed JSON object handed to `load_model_from_json`: the
`classes` and `relationships` keys may be absent. -/
structure RawModel where
  classes : Option (List String)
  relationships : Option (List RawRel)
deriving DecidableEq

/-- Errors raised while loading a model.  `malformedFact` models the
`KeyError` raised by `rel["from"]`, `rel["to"]` or `rel["label"]` on a
relationship entry missing that field (the spec's `MalformedFactError`). -/
inductive LoadError where
  | malformedFact
deriving DecidableEq

/-- The loop `for rel in data.get("relationships", []):
relationships.add((rel["from"], rel["to"], rel["label"]))`: accumulates the
set of triples, aborting with an error at the first entry missing a field. -/
def addRels : List RawRel → Finset RelTriple → Except LoadError (Finset RelTriple)
  | [], acc => .ok acc
  | r :: rs, acc =>
    match r.from_, r.to_, r.label with
    | some f, some t, some l => addRels rs (insert (f, t, l) acc)
    | _, _, _ => .error .malformedFact

/-- `load_model_from_json` (minus file I/O): builds a fact set from the
parsed JSON, with missing keys defaulting to empty lists via `data.get`. -/
def load_model_from_json (data : RawModel) : Except LoadError FactSet :=
  match addRels (data.relationships.getD []) ∅ with
  | .error e => .error e
  | .ok rels => .ok ⟨(data.classes.getD []).toFinset, rels⟩

/-! ## Best-model selection -/

/-- Error signalled when the best model is requested of an empty score map
(Python `max` raises `ValueError` on an empty sequence; the spec calls this
`NoModelsError`). -/
inductive NoModelsError where
  | noModels
deriving DecidableEq

/-- Python `max(scores, key=scores.get)` over the entries of the score
dict: keeps the current entry unless a later one is strictly greater, so
the first of several tied maxima wins. -/
def pyMax : List (String × ℚ) → Option (String × ℚ)
  | [] => none
  | x :: xs => some (xs.foldl (fun acc q => if acc.2 < q.2 then q else acc) x)

/-- The best-model lookup of lines 118 and 153: the name returned by
`max(scores, key=scores.get)`, or an error on an empty score map. -/
def bestModel (scores : List (String × ℚ)) : Except NoModelsError String :=
  match pyMax scores with
  | none => .error .noModels
  | some p => .ok p.1

/-! ## Concrete example registries (the scenario of the design notes) -/

/-- Model A of the worked scenario: classes `{"X", "Y"}`, no relationships. -/
def fsA : FactSet := ⟨{"X", "Y"}, ∅⟩

/-- Model B of the worked scenario: classes `{"Y", "Z"}`, no relationships. -/
def fsB : FactSet := ⟨{"Y", "Z"}, ∅⟩

/-- The two-model scenario registry `{A, B}`. -/
def demoRegistry : Registry := [("A", fsA), ("B", fsB)]

/-- A model carrying one relationship triple, shared with `fsD`. -/
def fsC : FactSet := ⟨{"X"}, {("X", "Y", "uses")}⟩

/-- A second model carrying the same relationship triple as `fsC`. -/
def fsD : FactSet := ⟨{"Y"}, {("X", "Y", "uses")}⟩

/-- A registry in which one relationship is corroborated by both models. -/
def demoRegistry2 : Registry := [("C", fsC), ("D", fsD)]


/-! ## Basic lemmas about the reconciler -/

lemma foldl_union_classes_mem (models : Registry) (s : Finset String)
    (c : String) :
    c ∈ models.foldl (fun acc p => acc ∪ p.2.classes) s ↔
      c ∈ s ∨ ∃ p ∈ models, c ∈ p.2.classes := by
  induction models generalizing s with
  | nil => simp
  | cons q qs ih =>
    simp only [List.foldl_cons, ih, Finset.mem_union, List.mem_cons]
    constructor
    · rintro ((h | h) | ⟨p, hp, hc⟩)
      · exact Or.inl h
      · exact Or.inr ⟨q, Or.inl rfl, h⟩
      · exact Or.inr ⟨p, Or.inr hp, hc⟩
    · rintro (h | ⟨p, (rfl | hp), hc⟩)
      · exact Or.inl (Or.inl h)
      · exact Or.inl (Or.inr hc)
      · exact Or.inr ⟨p, hp, hc⟩

lemma mem_allClasses (models : Registry) (c : String) :
    c ∈ allClasses models ↔ ∃ p ∈ models, c ∈ p.2.classes := by
  simp [allClasses, foldl_union_classes_mem]

lemma foldl_union_rels_mem (models : Registry) (s : Finset RelTriple) (r : RelTriple) :
    r ∈ models.foldl (fun acc p => acc ∪ p.2.relationships) s ↔
      r ∈ s ∨ ∃ p ∈ models, r ∈ p.2.relationships := by
  induction models generalizing s with
  | nil => simp
  | cons q qs ih =>
    simp only [List.foldl_cons, ih, Finset.mem_union, List.mem_cons]
    constructor
    · rintro ((h | h) | ⟨p, hp, hc⟩)
      · exact Or.inl h
      · exact Or.inr ⟨q, Or.inl rfl, h⟩
      · exact Or.inr ⟨p, Or.inr hp, hc⟩
    · rintro (h | ⟨p, (rfl | hp), hc⟩)
      · exact Or.inl (Or.inl h)
      · exact Or.inl (Or.inr hc)
      · exact Or.inr ⟨p, hp, hc⟩

lemma mem_allRelationships (models : Registry) (r : RelTriple) :
    r ∈ allRelationships models ↔ ∃ p ∈ models, r ∈ p.2.relationships := by
  simp [allRelationships, foldl_union_rels_mem]

lemma classes_subset_allClasses {models : Registry} {n : String}
    {fs : FactSet} (h : (n, fs) ∈ models) : fs.classes ⊆ allClasses models :=
  fun c hc => (mem_allClasses models c).mpr ⟨(n, fs), h, hc⟩

lemma rels_subset_allRelationships {models : Registry} {n : String}
    {fs : FactSet} (h : (n, fs) ∈ models) :
    fs.relationships ⊆ allRelationships models :=
  fun r hr => (mem_allRelationships models r).mpr ⟨(n, fs), h, hr⟩

lemma classPresence_ne_nil_iff (models : Registry) (c : String) :
    classPresence models c ≠ [] ↔ ∃ p ∈ models, c ∈ p.2.classes := by
  simp only [classPresence, ne_eq, List.map_eq_nil_iff,
    List.filter_eq_nil_iff, decide_eq_true_eq]
  push_neg
  rfl

lemma relationshipPresence_ne_nil_iff (models : Registry) (r : RelTriple) :
    relationshipPresence models r ≠ [] ↔
      ∃ p ∈ models, r ∈ p.2.relationships := by
  simp only [relationshipPresence, ne_eq, List.map_eq_nil_iff,
    List.filter_eq_nil_iff, decide_eq_true_eq]
  push_neg
  rfl

/-! ## Lemmas about the loader -/

lemma addRels_error : ∀ (l : List RawRel) (acc : Finset RelTriple)
    (r : RawRel), r ∈ l → (r.from_ = none ∨ r.to_ = none ∨ r.label = none) →
    addRels l acc = .error .malformedFact := by
  intro l
  induction l with
  | nil =>
    intro acc r hr _
    cases hr
  | cons x xs ih =>
    intro acc r hr hbad
    obtain ⟨xf, xt, xl⟩ := x
    rcases List.mem_cons.mp hr with rfl | hr2
    · rcases xf with _ | f
      · rfl
      rcases xt with _ | t
      · rfl
      rcases xl with _ | lb
      · rfl
      simp at hbad
    · rcases xf with _ | f
      · rfl
      rcases xt with _ | t
      · rfl
      rcases xl with _ | lb
      · rfl
      exact ih _ r hr2 hbad

/-! ## Lemmas about score/metric lookup -/

lemma lookup_map_snd {β γ : Type} [DecidableEq β] (L : List (String × β))
    (f : β → γ) (n : String) :
    List.lookup n (L.map (fun p => (p.1, f p.2))) =
      Option.map f (List.lookup n L) := by
  induction L with
  | nil => rfl
  | cons x xs ih =>
    by_cases h : n = x.1
    · simp [List.lookup, h]
    · simp only [List.map_cons, List.lookup, beq_false_of_ne h, ih]

/-! ## Lemmas about Python max -/

lemma foldl_max_spec (a : String × ℚ) (xs : List (String × ℚ)) :
    ∃ b, xs.foldl (fun acc q => if acc.2 < q.2 then q else acc) a = b ∧
      ((b = a ∧ ∀ q ∈ xs, q.2 ≤ a.2) ∨
       (∃ l₁ l₂, xs = l₁ ++ b :: l₂ ∧ a.2 < b.2 ∧ (∀ q ∈ l₁, q.2 < b.2) ∧
         ∀ q ∈ l₂, q.2 ≤ b.2)) := by
  induction xs generalizing a with
  | nil => exact ⟨a, rfl, Or.inl ⟨rfl, by simp⟩⟩
  | cons x xs ih =>
    simp only [List.foldl_cons]
    by_cases hax : a.2 < x.2
    · rw [if_pos hax]
      obtain ⟨b, hb, hcase⟩ := ih x
      refine ⟨b, hb, ?_⟩
      rcases hcase with ⟨rfl, hall⟩ | ⟨l₁, l₂, hxs, hxb, hl₁, hl₂⟩
      · exact Or.inr ⟨[], xs, rfl, hax, by simp, hall⟩
      · refine Or.inr ⟨x :: l₁, l₂, by rw [hxs, List.cons_append],
          lt_trans hax hxb, ?_, hl₂⟩
        intro q hq
        rcases List.mem_cons.mp hq with rfl | hq
        · exact hxb
        · exact hl₁ q hq
    · rw [if_neg hax]
      obtain ⟨b, hb, hcase⟩ := ih a
      refine ⟨b, hb, ?_⟩
      rcases hcase with ⟨rfl, hall⟩ | ⟨l₁, l₂, hxs, hab, hl₁, hl₂⟩
      · refine Or.inl ⟨rfl, ?_⟩
        intro q hq
        rcases List.mem_cons.mp hq with rfl | hq
        · exact not_lt.mp hax
        · exact hall q hq
      · refine Or.inr ⟨x :: l₁, l₂, by rw [hxs, List.cons_append], hab, ?_, hl₂⟩
        intro q hq
        rcases List.mem_cons.mp hq with rfl | hq
        · exact lt_of_le_of_lt (not_lt.mp hax) hab
        · exact hl₁ q hq

lemma pyMax_spec (scores : List (String × ℚ)) (hne : scores ≠ []) :
    ∃ b l₁ l₂, pyMax scores = some b ∧ scores = l₁ ++ b :: l₂ ∧
      (∀ q ∈ scores, q.2 ≤ b.2) ∧ ∀ q ∈ l₁, q.2 < b.2 := by
  obtain ⟨x, xs, rfl⟩ := List.exists_cons_of_ne_nil hne
  obtain ⟨b, hb, hcase⟩ := foldl_max_spec x xs
  rcases hcase with ⟨rfl, hall⟩ | ⟨l₁, l₂, hxs, hxb, hl₁, hl₂⟩
  · refine ⟨b, [], xs, by simp [pyMax, hb], rfl, ?_, by simp⟩
    intro q hq
    rcases List.mem_cons.mp hq with rfl | hq
    · exact le_refl _
    · exact hall q hq
  · refine ⟨b, x :: l₁, l₂, by simp [pyMax, hb],
      by rw [hxs, List.cons_append], ?_, ?_⟩
    · intro q hq
      rw [hxs] at hq
      rcases List.mem_cons.mp hq with rfl | hq
      · exact le_of_lt hxb
      · rcases List.mem_append.mp hq with hq | hq
        · exact le_of_lt (hl₁ q hq)
        · rcases List.mem_cons.mp hq with rfl | hq
          · exact le_refl _
          · exact hl₂ q hq
    · intro q hq
      rcases List.mem_cons.mp hq with rfl | hq
      · exact hxb
      · exact hl₁ q hq

/-! ## Bounds on the individual metrics -/

lemma classOverlapCount_le (models : Registry) (fs : FactSet) :
    classOverlapCount models fs ≤ fs.classes.card :=
  Finset.card_filter_le _ _

lemma relOverlapCount_le (models : Registry) (fs : FactSet) :
    relOverlapCount models fs ≤ fs.relationships.card :=
  Finset.card_filter_le _ _

lemma recallClasses_nonneg (models : Registry) (fs : FactSet) :
    0 ≤ recallClasses models fs := by
  unfold recallClasses
  split
  · exact le_refl 0
  · positivity

lemma recallClasses_le_one {models : Registry} {n : String} {fs : FactSet}
    (h : (n, fs) ∈ models) : recallClasses models fs ≤ 1 := by
  unfold recallClasses
  split
  · exact zero_le_one
  · rename_i h0
    have hpos : (0 : ℚ) < (allClasses models).card := by
      exact_mod_cast Finset.card_pos.mpr (Finset.nonempty_iff_ne_empty.mpr h0)
    exact (div_le_one hpos).mpr
      (Nat.cast_le.mpr (Finset.card_le_card (classes_subset_allClasses h)))

lemma precisionClasses_nonneg (models : Registry) (fs : FactSet) :
    0 ≤ precisionClasses models fs := by
  unfold precisionClasses
  split
  · exact le_refl 0
  · positivity

lemma precisionClasses_le_one (models : Registry) (fs : FactSet) :
    precisionClasses models fs ≤ 1 := by
  unfold precisionClasses
  split
  · exact zero_le_one
  · rename_i h0
    have hpos : (0 : ℚ) < fs.classes.card := by
      exact_mod_cast Finset.card_pos.mpr (Finset.nonempty_iff_ne_empty.mpr h0)
    exact (div_le_one hpos).mpr (Nat.cast_le.mpr (classOverlapCount_le models fs))

lemma recallRelationships_nonneg (models : Registry) (fs : FactSet) :
    0 ≤ recallRelationships models fs := by
  unfold recallRelationships
  split
  · exact le_refl 0
  · positivity

lemma recallRelationships_le_one {models : Registry} {n : String}
    {fs : FactSet} (h : (n, fs) ∈ models) :
    recallRelationships models fs ≤ 1 := by
  unfold recallRelationships
  split
  · exact zero_le_one
  · rename_i h0
    have hpos : (0 : ℚ) < (allRelationships models).card := by
      exact_mod_cast Finset.card_pos.mpr (Finset.nonempty_iff_ne_empty.mpr h0)
    exact (div_le_one hpos).mpr
      (Nat.cast_le.mpr (Finset.card_le_card (rels_subset_allRelationships h)))

lemma precisionRelationships_nonneg (models : Registry) (fs : FactSet) :
    0 ≤ precisionRelationships models fs := by
  unfold precisionRelationships
  split
  · exact le_refl 0
  · positivity

lemma precisionRelationships_le_one (models : Registry) (fs : FactSet) :
    precisionRelationships models fs ≤ 1 := by
  unfold precisionRelationships
  split
  · exact zero_le_one
  · rename_i h0
    have hpos : (0 : ℚ) < fs.relationships.card := by
      exact_mod_cast Finset.card_pos.mpr (Finset.nonempty_iff_ne_empty.mpr h0)
    exact (div_le_one hpos).mpr (Nat.cast_le.mpr (relOverlapCount_le models fs))

lemma overlapScore_nonneg (models : Registry) (fs : FactSet) :
    0 ≤ overlapScore models fs := by
  unfold overlapScore
  split
  · exact le_refl 0
  · positivity

lemma overlapScore_le_one (models : Registry) (fs : FactSet) :
    overlapScore models fs ≤ 1 := by
  unfold overlapScore
  split
  · exact zero_le_one
  · rename_i h0
    push_neg at h0
    have hpos : 0 < fs.classes.card + fs.relationships.card := by
      by_cases hc : fs.classes = ∅
      · have := Finset.card_pos.mpr (Finset.nonempty_iff_ne_empty.mpr (h0 hc))
        omega
      · have := Finset.card_pos.mpr (Finset.nonempty_iff_ne_empty.mpr hc)
        omega
    have hposq : (0 : ℚ) < (fs.classes.card : ℚ) + fs.relationships.card := by
      exact_mod_cast hpos
    refine (div_le_one hposq).mpr ?_
    have h1 := classOverlapCount_le models fs
    have h2 := relOverlapCount_le models fs
    exact add_le_add (Nat.cast_le.mpr h1) (Nat.cast_le.mpr h2)

lemma totalScore_nonneg (models : Registry) (fs : FactSet) :
    0 ≤ totalScore models fs := by
  unfold totalScore
  have h1 := recallClasses_nonneg models fs
  have h2 := precisionClasses_nonneg models fs
  have h3 := recallRelationships_nonneg models fs
  have h4 := precisionRelationships_nonneg models fs
  have h5 := overlapScore_nonneg models fs
  linarith

lemma totalScore_le_one {models : Registry} {n : String} {fs : FactSet}
    (h : (n, fs) ∈ models) : totalScore models fs ≤ 1 := by
  unfold totalScore
  have h1 := recallClasses_le_one h
  have h2 := precisionClasses_le_one models fs
  have h3 := recallRelationships_le_one h
  have h4 := precisionRelationships_le_one models fs
  have h5 := overlapScore_le_one models fs
  have h6 := recallClasses_nonneg models fs
  have h7 := precisionClasses_nonneg models fs
  have h8 := recallRelationships_nonneg models fs
  have h9 := precisionRelationships_nonneg models fs
  have h10 := overlapScore_nonneg models fs
  linarith

/-! ## Corroboration: presence lists of length above one -/

lemma exists_other_of_one_lt_length {α : Type} {l : List α} {x : α}
    (hx : x ∈ l) (hnd : l.Nodup) (h1 : 1 < l.length) : ∃ y ∈ l, y ≠ x := by
  cases l with
  | nil => cases hx
  | cons a as =>
    by_cases hax : a = x
    · subst hax
      cases as with
      | nil => simp at h1
      | cons b t =>
        refine ⟨b, List.mem_cons.mpr (Or.inr (List.mem_cons_self _ _)), ?_⟩
        intro hba
        exact (List.nodup_cons.mp hnd).1 (List.mem_cons.mpr (Or.inl hba.symm))
    · exact ⟨a, List.mem_cons_self _ _, hax⟩

lemma one_lt_length_of_two_mem {α : Type} {l : List α} {x y : α}
    (hx : x ∈ l) (hy : y ∈ l) (hxy : x ≠ y) : 1 < l.length := by
  cases l with
  | nil => cases hx
  | cons a as =>
    cases as with
    | nil =>
      have h1 : x = a := by simpa using hx
      have h2 : y = a := by simpa using hy
      exact absurd (h1.trans h2.symm) hxy
    | cons b t => simp [List.length_cons]

lemma one_lt_classPresence_length_iff {models : Registry}
    (hname : (models.map Prod.fst).Nodup) {n : String} {fs : FactSet}
    (hmem : (n, fs) ∈ models) {c : String} (hc : c ∈ fs.classes) :
    1 < (classPresence models c).length ↔
      ∃ p ∈ models, p.1 ≠ n ∧ c ∈ p.2.classes := by
  have hlen : (classPresence models c).length =
      (models.filter (fun p => c ∈ p.2.classes)).length :=
    List.length_map _ _
  have hml : (n, fs) ∈ models.filter (fun p => c ∈ p.2.classes) :=
    List.mem_filter.mpr ⟨hmem, by simpa using hc⟩
  have hndkeys : ((models.filter (fun p => c ∈ p.2.classes)).map
      Prod.fst).Nodup :=
    hname.sublist ((List.filter_sublist models).map Prod.fst)
  have hndl : (models.filter (fun p => c ∈ p.2.classes)).Nodup :=
    hndkeys.of_map Prod.fst
  rw [hlen]
  constructor
  · intro h2
    obtain ⟨y, hy, hyne⟩ := exists_other_of_one_lt_length hml hndl h2
    have hy2 := List.mem_filter.mp hy
    refine ⟨y, hy2.1, ?_, by simpa using hy2.2⟩
    intro hy1
    exact hyne (List.inj_on_of_nodup_map hndkeys hy hml hy1)
  · rintro ⟨p, hp, hpn, hpc⟩
    have hpl : p ∈ models.filter (fun q => c ∈ q.2.classes) :=
      List.mem_filter.mpr ⟨hp, by simpa using hpc⟩
    exact one_lt_length_of_two_mem hpl hml (fun hEq => hpn (by rw [hEq]))

lemma one_lt_relationshipPresence_length_iff {models : Registry}
    (hname : (models.map Prod.fst).Nodup) {n : String} {fs : FactSet}
    (hmem : (n, fs) ∈ models) {r : RelTriple} (hr : r ∈ fs.relationships) :
    1 < (relationshipPresence models r).length ↔
      ∃ p ∈ models, p.1 ≠ n ∧ r ∈ p.2.relationships := by
  have hlen : (relationshipPresence models r).length =
      (models.filter (fun p => r ∈ p.2.relationships)).length :=
    List.length_map _ _
  have hml : (n, fs) ∈ models.filter (fun p => r ∈ p.2.relationships) :=
    List.mem_filter.mpr ⟨hmem, by simpa using hr⟩
  have hndkeys : ((models.filter (fun p => r ∈ p.2.relationships)).map
      Prod.fst).Nodup :=
    hname.sublist ((List.filter_sublist models).map Prod.fst)
  have hndl : (models.filter (fun p => r ∈ p.2.relationships)).Nodup :=
    hndkeys.of_map Prod.fst
  rw [hlen]
  constructor
  · intro h2
    obtain ⟨y, hy, hyne⟩ := exists_other_of_one_lt_length hml hndl h2
    have hy2 := List.mem_filter.mp hy
    refine ⟨y, hy2.1, ?_, by simpa using hy2.2⟩
    intro hy1
    exact hyne (List.inj_on_of_nodup_map hndkeys hy hml hy1)
  · rintro ⟨p, hp, hpn, hpc⟩
    have hpl : p ∈ models.filter (fun q => r ∈ q.2.relationships) :=
      List.mem_filter.mpr ⟨hp, by simpa using hpc⟩
    exact one_lt_length_of_two_mem hpl hml (fun hEq => hpn (by rw [hEq]))

/-! ## Extending a registry with one more model -/

lemma classPresence_append (models : Registry) (x : String × FactSet)
    (c : String) :
    classPresence (models ++ [x]) c =
      classPresence models c ++ classPresence [x] c := by
  simp [classPresence, List.filter_append]

lemma classPresence_length_le_append (models : Registry)
    (x : String × FactSet) (c : String) :
    (classPresence models c).length ≤
      (classPresence (models ++ [x]) c).length := by
  rw [classPresence_append, List.length_append]
  exact Nat.le_add_right _ _

lemma classOverlapCount_le_append (models : Registry) (x : String × FactSet)
    (fs : FactSet) :
    classOverlapCount models fs ≤ classOverlapCount (models ++ [x]) fs := by
  apply Finset.card_le_card
  intro c hc
  rw [Finset.mem_filter] at hc ⊢
  refine ⟨hc.1, ?_⟩
  have := hc.2
  simp only [decide_eq_true_eq] at this ⊢
  exact lt_of_lt_of_le this (classPresence_length_le_append models x c)

/-! ## Claim theorems -/

/-- C8: for the empty registry the reconciler returns empty unions and
empty presence maps, the scorer returns empty score and metric maps, and
the best-model lookup signals `NoModelsError` instead of returning a name. -/
theorem C8_empty_registry :
    allClasses [] = ∅ ∧ allRelationships [] = ∅ ∧
    (∀ c, classPresence [] c = []) ∧
    (∀ r, relationshipPresence [] r = []) ∧
    evaluate_models [] = ([], []) ∧
    bestModel [] = .error .noModels :=
  ⟨rfl, rfl, fun _ => rfl, fun _ => rfl, rfl, rfl⟩

/-- C9: in a registry with exactly one model, that model's
precision_classes, precision_relationships and overlap_score are all 0:
every presence list has length exactly 1, so no fact is corroborated. -/
theorem C9_singleton_registry_zero_precisions (n : String) (fs : FactSet) :
    precisionClasses [(n, fs)] fs = 0 ∧
    precisionRelationships [(n, fs)] fs = 0 ∧
    overlapScore [(n, fs)] fs = 0 := by
  have hc : classOverlapCount [(n, fs)] fs = 0 := by
    simp only [classOverlapCount, Finset.card_eq_zero]
    refine Finset.filter_eq_empty_iff.mpr ?_
    intro c hcmem
    simp [classPresence, hcmem]
  have hr : relOverlapCount [(n, fs)] fs = 0 := by
    simp only [relOverlapCount, Finset.card_eq_zero]
    refine Finset.filter_eq_empty_iff.mpr ?_
    intro r hrmem
    simp [relationshipPresence, hrmem]
  refine ⟨?_, ?_, ?_⟩
  · unfold precisionClasses
    split
    · rfl
    · rw [hc]
      norm_num
  · unfold precisionRelationships
    split
    · rfl
    · rw [hr]
      norm_num
  · unfold overlapScore
    split
    · rfl
    · rw [hc, hr]
      norm_num

/-- C10: the two outputs of `evaluate_models` agree: for every model name,
the value in the score map equals the `total_score` field of the metrics
record for that name. -/
theorem C10_scores_agree_with_metrics (models : Registry) (n : String) :
    List.lookup n (evaluate_models models).1 =
      Option.map MetricsRecord.total_score
        (List.lookup n (evaluate_models models).2) := by
  simp only [evaluate_models]
  rw [lookup_map_snd, lookup_map_snd]
  cases List.lookup n models with
  | none => rfl
  | some fs => rfl

/-- C1: precision_classes is the number of classes of the model whose
presence list has length above 1, divided by the number of its classes
(0 when that set is empty), and a class has a presence list of length
above 1 exactly when at least one model other than this one contains it. -/
theorem C1_precision_classes (models : Registry)
    (hname : (models.map Prod.fst).Nodup) (n : String) (fs : FactSet)
    (h : (n, fs) ∈ models) :
    precisionClasses models fs =
      (if fs.classes = ∅ then 0 else
        ((fs.classes.filter
          (fun c => 1 < (classPresence models c).length)).card : ℚ) /
          fs.classes.card) ∧
    ∀ c ∈ fs.classes,
      (1 < (classPresence models c).length ↔
        ∃ p ∈ models, p.1 ≠ n ∧ c ∈ p.2.classes) := by
  refine ⟨rfl, ?_⟩
  intro c hc
  exact one_lt_classPresence_length_iff hname h hc

/-- Witness for C1 at the scenario registry, model A. -/
theorem C1_witness :
    precisionClasses demoRegistry fsA =
      (if fsA.classes = ∅ then 0 else
        ((fsA.classes.filter
          (fun c => 1 < (classPresence demoRegistry c).length)).card : ℚ) /
          fsA.classes.card) ∧
    ∀ c ∈ fsA.classes,
      (1 < (classPresence demoRegistry c).length ↔
        ∃ p ∈ demoRegistry, p.1 ≠ "A" ∧ c ∈ p.2.classes) :=
  C1_precision_classes demoRegistry (by decide) "A" fsA (by decide)

/-- C2 counterexample: in the registry holding one model with an empty
class set, that model's class set equals `all_classes` (both are empty),
yet recall_classes is 0, not 1 — so "recall_classes = 1 iff the model's
classes equal all_classes" fails as stated. -/
theorem C2_counterexample :
    ("A", FactSet.mk ∅ ∅) ∈ ([("A", FactSet.mk ∅ ∅)] : Registry) ∧
    (FactSet.mk ∅ ∅).classes = allClasses [("A", FactSet.mk ∅ ∅)] ∧
    recallClasses [("A", FactSet.mk ∅ ∅)] (FactSet.mk ∅ ∅) ≠ 1 := by
  decide

/-- C2 (amended): recall_classes always lies in [0,1], and equals 1 iff
the model's classes equal `all_classes` and `all_classes` is nonempty. -/
theorem C2_recall_classes_range_one_iff (models : Registry) (n : String)
    (fs : FactSet) (h : (n, fs) ∈ models) :
    (0 ≤ recallClasses models fs ∧ recallClasses models fs ≤ 1) ∧
    (recallClasses models fs = 1 ↔
      fs.classes = allClasses models ∧ allClasses models ≠ ∅) := by
  refine ⟨⟨recallClasses_nonneg models fs, recallClasses_le_one h⟩, ?_⟩
  unfold recallClasses
  split
  · rename_i h0
    constructor
    · intro h01
      exact absurd h01 (by norm_num)
    · rintro ⟨-, hne⟩
      exact absurd h0 hne
  · rename_i h0
    have hposn : 0 < (allClasses models).card :=
      Finset.card_pos.mpr (Finset.nonempty_iff_ne_empty.mpr h0)
    have hpos : (0 : ℚ) < ((allClasses models).card : ℚ) := by
      exact_mod_cast hposn
    constructor
    · intro hdiv
      have hcards : (fs.classes.card : ℚ) = ((allClasses models).card : ℚ) :=
        (div_eq_one_iff_eq (ne_of_gt hpos)).mp hdiv
      have hnat : fs.classes.card = (allClasses models).card := by
        exact_mod_cast hcards
      exact ⟨Finset.eq_of_subset_of_card_le (classes_subset_allClasses h)
        (le_of_eq hnat.symm), h0⟩
    · rintro ⟨hEq, -⟩
      rw [hEq]
      exact div_self (ne_of_gt hpos)

/-- Witness for the amended C2 at the scenario registry, model A. -/
theorem C2_witness :
    (0 ≤ recallClasses demoRegistry fsA ∧ recallClasses demoRegistry fsA ≤ 1) ∧
    (recallClasses demoRegistry fsA = 1 ↔
      fsA.classes = allClasses demoRegistry ∧ allClasses demoRegistry ≠ ∅) :=
  C2_recall_classes_range_one_iff demoRegistry "A" fsA (by decide)

/-- C5: every class in `all_classes` has a presence list of length at
least 1, and every fact with a key in the presence index (a nonempty
presence list) is contained in at least one model's fact set; the same
holds for relationships. -/
theorem C5_presence_invariants (models : Registry) :
    (∀ c, (c ∈ allClasses models → 1 ≤ (classPresence models c).length) ∧
      (classPresence models c ≠ [] → ∃ p ∈ models, c ∈ p.2.classes)) ∧
    (∀ r, (r ∈ allRelationships models →
        1 ≤ (relationshipPresence models r).length) ∧
      (relationshipPresence models r ≠ [] →
        ∃ p ∈ models, r ∈ p.2.relationships)) := by
  constructor
  · intro c
    constructor
    · intro hc
      have hne : classPresence models c ≠ [] :=
        (classPresence_ne_nil_iff models c).mpr
          ((mem_allClasses models c).mp hc)
      have := List.length_pos.mpr hne
      omega
    · exact (classPresence_ne_nil_iff models c).mp
  · intro r
    constructor
    · intro hr
      have hne : relationshipPresence models r ≠ [] :=
        (relationshipPresence_ne_nil_iff models r).mpr
          ((mem_allRelationships models r).mp hr)
      have := List.length_pos.mpr hne
      omega
    · exact (relationshipPresence_ne_nil_iff models r).mp

/-- Witness for C5 at the two scenario registries, on a class and on a
relationship. -/
theorem C5_witness :
    1 ≤ (classPresence demoRegistry "Y").length ∧
    (∃ p ∈ demoRegistry, "Y" ∈ p.2.classes) ∧
    1 ≤ (relationshipPresence demoRegistry2 ("X", "Y", "uses")).length ∧
    (∃ p ∈ demoRegistry2, ("X", "Y", "uses") ∈ p.2.relationships) := by
  refine ⟨((C5_presence_invariants demoRegistry).1 "Y").1 (by decide),
    ((C5_presence_invariants demoRegistry).1 "Y").2 (by decide),
    ((C5_presence_invariants demoRegistry2).2 ("X", "Y", "uses")).1
      (by decide),
    ((C5_presence_invariants demoRegistry2).2 ("X", "Y", "uses")).2
      (by decide)⟩

/-- C6: for every model in the registry, all six fields of its metrics
record lie in the interval [0,1]. -/
theorem C6_metrics_in_unit_interval (models : Registry) (n : String)
    (fs : FactSet) (h : (n, fs) ∈ models) :
    (0 ≤ (metricsOf models fs).recall_classes ∧
      (metricsOf models fs).recall_classes ≤ 1) ∧
    (0 ≤ (metricsOf models fs).precision_classes ∧
      (metricsOf models fs).precision_classes ≤ 1) ∧
    (0 ≤ (metricsOf models fs).recall_relationships ∧
      (metricsOf models fs).recall_relationships ≤ 1) ∧
    (0 ≤ (metricsOf models fs).precision_relationships ∧
      (metricsOf models fs).precision_relationships ≤ 1) ∧
    (0 ≤ (metricsOf models fs).overlap_score ∧
      (metricsOf models fs).overlap_score ≤ 1) ∧
    (0 ≤ (metricsOf models fs).total_score ∧
      (metricsOf models fs).total_score ≤ 1) :=
  ⟨⟨recallClasses_nonneg models fs, recallClasses_le_one h⟩,
   ⟨precisionClasses_nonneg models fs, precisionClasses_le_one models fs⟩,
   ⟨recallRelationships_nonneg models fs, recallRelationships_le_one h⟩,
   ⟨precisionRelationships_nonneg models fs,
     precisionRelationships_le_one models fs⟩,
   ⟨overlapScore_nonneg models fs, overlapScore_le_one models fs⟩,
   ⟨totalScore_nonneg models fs, totalScore_le_one h⟩⟩

/-- Witness for C6 at the relationship-carrying registry, model C. -/
theorem C6_witness :
    (0 ≤ (metricsOf demoRegistry2 fsC).recall_classes ∧
      (metricsOf demoRegistry2 fsC).recall_classes ≤ 1) ∧
    (0 ≤ (metricsOf demoRegistry2 fsC).precision_classes ∧
      (metricsOf demoRegistry2 fsC).precision_classes ≤ 1) ∧
    (0 ≤ (metricsOf demoRegistry2 fsC).recall_relationships ∧
      (metricsOf demoRegistry2 fsC).recall_relationships ≤ 1) ∧
    (0 ≤ (metricsOf demoRegistry2 fsC).precision_relationships ∧
      (metricsOf demoRegistry2 fsC).precision_relationships ≤ 1) ∧
    (0 ≤ (metricsOf demoRegistry2 fsC).overlap_score ∧
      (metricsOf demoRegistry2 fsC).overlap_score ≤ 1) ∧
    (0 ≤ (metricsOf demoRegistry2 fsC).total_score ∧
      (metricsOf demoRegistry2 fsC).total_score ≤ 1) :=
  C6_metrics_in_unit_interval demoRegistry2 "C" fsC (by decide)

/-- C7: a missing `classes` or `relationships` key defaults to the empty
collection without error, while a relationship entry missing `from`, `to`
or `label` makes the whole load signal an error, so no fact set is
produced for that model. -/
theorem C7_loader_defaults_and_malformed :
    (∀ d : RawModel, d.classes = none →
      load_model_from_json d =
        load_model_from_json ⟨some [], d.relationships⟩) ∧
    (∀ d : RawModel, d.relationships = none →
      load_model_from_json d = load_model_from_json ⟨d.classes, some []⟩) ∧
    (∀ d : RawModel, d.classes = none → d.relationships = none →
      load_model_from_json d = .ok ⟨∅, ∅⟩) ∧
    (∀ (d : RawModel) (r : RawRel), r ∈ d.relationships.getD [] →
      (r.from_ = none ∨ r.to_ = none ∨ r.label = none) →
      load_model_from_json d = .error .malformedFact) := by
  refine ⟨?_, ?_, ?_, ?_⟩
  · intro d h
    obtain ⟨dc, dr⟩ := d
    subst h
    rfl
  · intro d h
    obtain ⟨dc, dr⟩ := d
    subst h
    rfl
  · intro d h1 h2
    obtain ⟨dc, dr⟩ := d
    subst h1
    subst h2
    rfl
  · intro d r hr hbad
    unfold load_model_from_json
    rw [addRels_error _ _ r hr hbad]

/-- Witness for C7: an input with both keys missing loads as the empty
fact set, and an input whose single relationship entry lacks `from`
signals the error. -/
theorem C7_witness :
    load_model_from_json ⟨none, none⟩ = .ok ⟨∅, ∅⟩ ∧
    load_model_from_json ⟨none, some [⟨none, some "B", some "uses"⟩]⟩ =
      .error .malformedFact ∧
    load_model_from_json ⟨none, some []⟩ =
      load_model_from_json ⟨some [], some []⟩ :=
  ⟨C7_loader_defaults_and_malformed.2.2.1 ⟨none, none⟩ rfl rfl,
   C7_loader_defaults_and_malformed.2.2.2
     ⟨none, some [⟨none, some "B", some "uses"⟩]⟩
     ⟨none, some "B", some "uses"⟩ (by decide) (Or.inl rfl),
   C7_loader_defaults_and_malformed.1 ⟨none, some []⟩ rfl⟩

/-- C3: appending one further model whose class set is a subset of an
existing model's class set never decreases that model's
precision_classes. -/
theorem C3_precision_monotone_extend (models : Registry) (n : String)
    (fs : FactSet) (n2 : String) (fs2 : FactSet)
    (_h : (n, fs) ∈ models) (_hfresh : n2 ∉ models.map Prod.fst)
    (_hsub : fs2.classes ⊆ fs.classes) :
    precisionClasses models fs ≤
      precisionClasses (models ++ [(n2, fs2)]) fs := by
  unfold precisionClasses
  by_cases hc : fs.classes = ∅
  · simp [hc]
  · rw [if_neg hc, if_neg hc]
    have hpos : (0 : ℚ) < (fs.classes.card : ℚ) := by
      exact_mod_cast Finset.card_pos.mpr (Finset.nonempty_iff_ne_empty.mpr hc)
    exact (div_le_div_iff_of_pos_right hpos).mpr
      (Nat.cast_le.mpr (classOverlapCount_le_append models (n2, fs2) fs))

/-- Witness for C3: appending a model with classes `{"X"} ⊆ {"X","Y"}` to
the scenario registry does not decrease model A's precision. -/
theorem C3_witness :
    precisionClasses demoRegistry fsA ≤
      precisionClasses (demoRegistry ++ [("E", FactSet.mk {"X"} ∅)]) fsA :=
  C3_precision_monotone_extend demoRegistry "A" fsA "E" ⟨{"X"}, ∅⟩
    (by decide) (by decide) (by decide)

/-- C4: for a nonempty registry the selected best model is an entry of
the score map with maximal total_score, and every entry listed before it
in registry iteration order has a strictly smaller score, so the first of
several tied maxima wins. -/
theorem C4_best_model_first_max (models : Registry) (hne : models ≠ []) :
    ∃ b l₁ l₂,
      bestModel (evaluate_models models).1 = .ok b.1 ∧
      (evaluate_models models).1 = l₁ ++ b :: l₂ ∧
      (∀ q ∈ (evaluate_models models).1, q.2 ≤ b.2) ∧
      (∀ q ∈ l₁, q.2 < b.2) ∧
      ∃ fs, (b.1, fs) ∈ models ∧ b.2 = totalScore models fs := by
  have hsne : (evaluate_models models).1 ≠ [] := by
    simp only [evaluate_models]
    exact fun hEq => hne (List.map_eq_nil_iff.mp hEq)
  obtain ⟨b, l₁, l₂, hpy, hdecomp, hmax, hpre⟩ := pyMax_spec _ hsne
  refine ⟨b, l₁, l₂, ?_, hdecomp, hmax, hpre, ?_⟩
  · unfold bestModel
    rw [hpy]
  · have hb : b ∈ (evaluate_models models).1 := by
      rw [hdecomp]
      exact List.mem_append.mpr (Or.inr (List.mem_cons_self _ _))
    simp only [evaluate_models] at hb
    obtain ⟨p, hp, hpb⟩ := List.mem_map.mp hb
    subst hpb
    exact ⟨p.2, hp, rfl⟩

/-- Witness for C4 at the scenario registry. -/
theorem C4_witness :
    ∃ b l₁ l₂,
      bestModel (evaluate_models demoRegistry).1 = .ok b.1 ∧
      (evaluate_models demoRegistry).1 = l₁ ++ b :: l₂ ∧
      (∀ q ∈ (evaluate_models demoRegistry).1, q.2 ≤ b.2) ∧
      (∀ q ∈ l₁, q.2 < b.2) ∧
      ∃ fs, (b.1, fs) ∈ demoRegistry ∧ b.2 = totalScore demoRegistry fs :=
  C4_best_model_first_max demoRegistry (by decide)
